import Mathlib

/-
Verification of the request-plan pipeline of the client library
(src/request/plan.rs, src/request/plan_builder.rs, src/request/mod.rs).

The Rust code is shallowly embedded as follows.

* A response type (KvRequest::Response) implements the capability traits
  HasError, HasRegionError and HasLocks; it is modelled as a structure
  `Response` with an optional top-level error, an optional region error and
  a list of locks, plus an opaque payload.
* A backoff schedule (crate module backoff, not part of the excerpt;
  modelled from the spec) is the list of delay durations it will still
  yield, plus the flag telling whether it is the trivial no-retry
  schedule.  `next_delay_duration` pops the head; cloning copies the state.
* An inner plan as seen by a retry stage is modelled as a function from
  the index of the invocation to the result of that invocation, so that a
  mock whose responses vary over attempts is expressible.  The stages
  thread the index explicitly and also record, per execution, how many
  inner invocations happened, how many resolver calls happened, how many
  backoff delays were drawn, and which regions were invalidated at the
  placement directory client.
* `ResolveLock::execute` contains a loop whose termination is not
  syntactically evident (and, as proved below, does not hold in general),
  so its loop takes a fuel argument; `none` means the loop was still
  running when the fuel ran out.
-/

namespace ClientRust

/-- Error values, mirroring the variants of the crate error enum which the
plan stages construct or inspect: `Error::ResolveLockError` (plan.rs line
227 and 236), `Error::RegionNotFound { region_id }` (used by the mock in
mod.rs line 93), and a catch-all for any other error value. -/
inductive Error where
  | resolveLockError
  | regionNotFound (regionId : Nat)
  | otherErr (code : Nat)
deriving DecidableEq

/-- A lock record (kvrpcpb::LockInfo); its contents are irrelevant to the
plan logic, only the emptiness of a lock list is inspected. -/
abbrev Lock := Nat

/-- A response value together with its three capability queries.
`err` is `HasError::error()`, `regionError` is
`HasRegionError::region_error()`, `locks` backs `HasLocks::take_locks()`
(modelled from the spec's Response contract: `error() -> Option<Error>`,
`region_error() -> Option<Error>`, `take_locks() -> Vec<Lock>`).  The
payload `value` stands for the rest of the response. -/
structure Response (α : Type) where
  err : Option Error
  regionError : Option Error
  locks : List Lock
  value : α

/-- Modelled from the spec: `HasLocks::take_locks` removes and returns the
lock set of a response ("Take the lock set from the current response"). -/
def takeLocks {α : Type} (r : Response α) : List Lock × Response α :=
  (r.locks, { r with locks := [] })

/-- Modelled from the spec: a backoff schedule is a stateful producer of a
sequence of delays.  `delays` is the remaining sequence; `isNone` tells
whether this is the trivial "none" (no-retry) schedule.  Cloning a backoff
copies this state. -/
structure Backoff where
  delays : List Nat
  isNone : Bool
deriving DecidableEq

/-- Modelled from the spec: `next_delay_duration` returns the next delay
and the advanced schedule state, or signals exhaustion. -/
def Backoff.nextDelayDuration (b : Backoff) : Option (Nat × Backoff) :=
  match b.delays with
  | [] => none
  | d :: rest => some (d, { b with delays := rest })

/-- Modelled from the spec: `Backoff::no_backoff()` (mod.rs line 57), the
trivial schedule: yields no delay and reports itself as "none". -/
def Backoff.noBackoff : Backoff :=
  { delays := [], isNone := true }

/-! ### Dispatch (plan.rs lines 27-49) -/

/-- The `Dispatch` plan: a bound request and an optionally populated store
client slot.  The store client is modelled by its only operation,
`dispatch(request) -> response`, as a function from the request to a
result. -/
structure Dispatch (Req Resp : Type) where
  request : Req
  kv_client : Option (Req → Except Error Resp)

/-- Outcome of running Rust code that may panic: either a panic (from
`expect`) or a normal value.  A panic is a programmer error, not an error
value returned to the caller. -/
inductive PanicOr (α : Type) where
  | panicked
  | ok (val : α)

/-- `Dispatch::execute` (plan.rs lines 38-48): `expect` the store client
slot to be populated (message "Unreachable: kv_client has not been
initialised in Dispatch", a panic when it is not), then dispatch the bound
request through it.  The stats wrapper (`tikv_stats`/`done`) only records
metrics and returns the result unchanged, and the `downcast` always
succeeds for a well-typed client, so both are modelled as the identity. -/
def Dispatch.execute {Req Resp : Type} (d : Dispatch Req Resp) :
    PanicOr (Except Error Resp) :=
  match d.kv_client with
  | none => PanicOr.panicked
  | some client => PanicOr.ok (client d.request)

/-! ### MultiRegion (plan.rs lines 51-88) -/

/-- The outcome of one item of the shard stream inside
`MultiRegion::execute` (the `and_then` closure, plan.rs lines 76-84).
A stream item that is itself an error (the placement directory could not
resolve a key) passes through `and_then` unchanged.  For an `Ok` item the
closure clones the inner plan, applies the shard and store to the clone
(`apply_shard`, may fail), executes the clone (may fail), and finally
projects a response whose top-level `error()` is `Some` into an error.
Since every per-shard clone starts from the same inner plan, applying the
shard and executing are modelled as functions of the (shard, store) pair:
`applyShard` gives the result of `clone.apply_shard(shard, &store)` and
`execShard` the result of `clone.execute()` after a successful apply. -/
def shardOutcome {σ τ α : Type} (applyShard : σ → τ → Except Error Unit)
    (execShard : σ → τ → Except Error (Response α)) :
    Except Error (σ × τ) → Except Error (Response α)
  | Except.error e => Except.error e
  | Except.ok (shard, store) =>
    match applyShard shard store with
    | Except.error e => Except.error e
    | Except.ok _ =>
      match execShard shard store with
      | Except.error e => Except.error e
      | Except.ok response =>
        match response.err with
        | some e => Except.error e
        | none => Except.ok response

/-- `MultiRegion::execute` (plan.rs lines 72-87): the shard stream is the
list `items` of (shard, store) results in stream order; `and_then` maps
each item through the closure (sequentially, preserving order) and
`collect` gathers every item — error items included — into the vector,
which is returned under an outermost `Ok`. -/
def multiRegionExecute {σ τ α : Type} (applyShard : σ → τ → Except Error Unit)
    (execShard : σ → τ → Except Error (Response α))
    (items : List (Except Error (σ × τ))) :
    Except Error (List (Except Error (Response α))) :=
  Except.ok (items.map (shardOutcome applyShard execShard))

/-! ### RetryRegion (plan.rs lines 155-193) -/

/-- What one execution of `RetryRegion::execute` produced: the plan-level
result, the total number of inner-plan invocations, the number of backoff
delays drawn, and the list of region ids passed to the placement directory
client's `invalidate_region` during the execution (the body of
`RetryRegion::execute` contains no such call, which the model makes
visible by recording the trace). -/
structure RROutcome (α : Type) where
  result : Except Error (Response α)
  invocations : Nat
  delaysDrawn : Nat
  invalidatedRegions : List Nat

/-- The retry loop of `RetryRegion::execute` (plan.rs lines 181-189).
`self` is cloned once before the loop, so the backoff state is threaded
through the iterations: each iteration either returns or consumes the head
delay of `delays`.  While the current result carries a region error, the
next delay is drawn; exhaustion returns that region error as the
plan-level error; otherwise the stage sleeps (irrelevant to the model) and
re-executes the inner plan, whose own error propagates via `?`. -/
def retryRegionGo {α : Type} (inner : Nat → Except Error (Response α)) :
    List Nat → Response α → Nat → Nat → RROutcome α
  | delays, result, inv, dd =>
    match result.regionError with
    | none => ⟨Except.ok result, inv, dd, []⟩
    | some e =>
      match delays with
      | [] => ⟨Except.error e, inv, dd, []⟩
      | _ :: rest =>
        match inner inv with
        | Except.error e2 => ⟨Except.error e2, inv + 1, dd + 1, []⟩
        | Except.ok r => retryRegionGo inner rest r (inv + 1) (dd + 1)

/-- `RetryRegion::execute` (plan.rs lines 178-192): execute the inner plan
once (index 0; its error propagates via `?`), clone `self` once, then run
the retry loop against the cloned backoff state. -/
def retryRegionExecute {α : Type} (inner : Nat → Except Error (Response α))
    (b : Backoff) : RROutcome α :=
  match inner 0 with
  | Except.error e => ⟨Except.error e, 1, 0, []⟩
  | Except.ok r => retryRegionGo inner b.delays r 1 0

/-! ### ResolveLock (plan.rs lines 195-245) -/

/-- What one execution of `ResolveLock::execute` produced: the plan-level
result, the total number of inner-plan invocations, the number of calls to
the lock resolver `resolve_locks`, and the number of backoff delays
drawn. -/
structure RLOutcome (α : Type) where
  result : Except Error (Response α)
  invocations : Nat
  resolverCalls : Nat
  delaysDrawn : Nat

/-- The loop of `ResolveLock::execute` (plan.rs lines 220-243), with fuel
bounding the number of iterations (`none` = still looping when the fuel
ran out).  Per iteration: take the locks from the current result; if the
lock set is empty return the result; if the backoff is the trivial "none"
schedule fail with `ResolveLockError`; otherwise call the lock resolver
(whose error propagates via `?`; `resolver` maps the index of the call to
its result).  On `true` re-execute the inner plan with no backoff
interaction.  On `false` the source clones `self` afresh INSIDE the loop
body (plan.rs line 234), so the delay is drawn from an unconsumed copy of
`self.backoff` and the copy is dropped at the end of the iteration: the
model therefore draws from the original `b` each time and passes the
original `b` to the next iteration.  A successful draw sleeps and
re-executes the inner plan; an exhausted draw fails with
`ResolveLockError`. -/
def resolveLockGo {α : Type} (inner : Nat → Except Error (Response α))
    (resolver : Nat → Except Error Bool) (b : Backoff) :
    Nat → Response α → Nat → Nat → Nat → Option (RLOutcome α)
  | 0, _, _, _, _ => none
  | fuel + 1, result, inv, rc, dd =>
    let taken := takeLocks result
    if taken.1.isEmpty then some ⟨Except.ok taken.2, inv, rc, dd⟩
    else if b.isNone then some ⟨Except.error Error.resolveLockError, inv, rc, dd⟩
    else
      match resolver rc with
      | Except.error e => some ⟨Except.error e, inv, rc + 1, dd⟩
      | Except.ok true =>
        match inner inv with
        | Except.error e => some ⟨Except.error e, inv + 1, rc + 1, dd⟩
        | Except.ok r => resolveLockGo inner resolver b fuel r (inv + 1) (rc + 1) dd
      | Except.ok false =>
        match b.nextDelayDuration with
        | none => some ⟨Except.error Error.resolveLockError, inv, rc + 1, dd⟩
        | some _ =>
          match inner inv with
          | Except.error e => some ⟨Except.error e, inv + 1, rc + 1, dd + 1⟩
          | Except.ok r =>
            resolveLockGo inner resolver b fuel r (inv + 1) (rc + 1) (dd + 1)

/-- `ResolveLock::execute` (plan.rs lines 218-244): execute the inner plan
once (index 0; its error propagates via `?`), then enter the loop. -/
def resolveLockExecute {α : Type} (inner : Nat → Except Error (Response α))
    (resolver : Nat → Except Error Bool) (b : Backoff) (fuel : Nat) :
    Option (RLOutcome α) :=
  match inner 0 with
  | Except.error e => some ⟨Except.error e, 1, 0, 0⟩
  | Except.ok r => resolveLockGo inner resolver b fuel r 1 0 0

/-! ### PlanBuilder (plan_builder.rs)

The builder is a phase-indexed state machine.  Its state is the phase
(`NoTarget` or `Targetted`, plan_builder.rs lines 21-25) together with the
shape of the plan type built so far; each builder method is available only
when its `impl` block's phase and trait bounds are satisfied, which the
step function checks.  Trait availability for the capability bounds is
resolved against the impls of this crate (for the modules ouside the
excerpt — shard.rs, the store crate's capability impls — it is modelled
from the spec). -/

/-- The two phases of the builder (plan_builder.rs lines 21-25). -/
inductive PlanBuilderPhase where
  | noTarget
  | targetted
deriving DecidableEq

/-- The shape of the plan type assembled so far: one constructor per plan
stage of plan.rs (plus `HeartbeatPlan`, which plan_builder.rs line 119
wraps). -/
inductive PlanShape where
  | dispatch
  | resolveLock (inner : PlanShape)
  | retryRegion (inner : PlanShape)
  | multiRegion (inner : PlanShape)
  | mergeResponse (inner : PlanShape)
  | processResponse (inner : PlanShape)
  | heartbeat (inner : PlanShape)
deriving DecidableEq

/-- Capabilities of the concrete request type the builder was seeded with:
whether it implements `Shardable` and whether it implements `SingleKey`
(plan_builder.rs lines 151, 185). -/
structure ReqCaps where
  shardable : Bool
  singleKey : Bool
deriving DecidableEq

/-- Does `P::Result` satisfy the bound `HasLocks` (used by `resolve_lock`,
plan_builder.rs line 52)?  `Dispatch<Req>::Result = Req::Response`, which
the `KvRequest` bound makes `HasLocks` (mod.rs line 29); `ResolveLock`,
`RetryRegion` and (modelled from the spec, which treats `heart_beat` as
forwarding the inner result) `HeartbeatPlan` keep the inner result type.
No `HasLocks` impl exists for `MultiRegion`'s `Vec<Result<_>>`, for a
merge strategy's output or for a processor's output. -/
def shapeHasLocks : PlanShape → Bool
  | PlanShape.dispatch => true
  | PlanShape.resolveLock s => shapeHasLocks s
  | PlanShape.retryRegion s => shapeHasLocks s
  | PlanShape.multiRegion _ => false
  | PlanShape.mergeResponse _ => false
  | PlanShape.processResponse _ => false
  | PlanShape.heartbeat s => shapeHasLocks s

/-- Does `P::Result` satisfy the bound `HasError` (used by `retry_region`,
`heart_beat` and `multi_region`, plan_builder.rs lines 70, 121, 136)?
`Dispatch<Req>::Result` is `HasError` via the `KvRequest` bound (mod.rs
line 29); the store crate provides the impl for `Vec<Result<T>>` used
behind `MultiRegion` (modelled from the spec, exercised by the test of
mod.rs line 169); no impl exists for merge or processor outputs. -/
def shapeHasError : PlanShape → Bool
  | PlanShape.dispatch => true
  | PlanShape.resolveLock s => shapeHasError s
  | PlanShape.retryRegion s => shapeHasError s
  | PlanShape.multiRegion s => shapeHasError s
  | PlanShape.mergeResponse _ => false
  | PlanShape.processResponse _ => false
  | PlanShape.heartbeat s => shapeHasError s

/-- Does `P::Result` have the form `Vec<Result<In>>` required by `merge`
(plan_builder.rs line 88)?  Only `MultiRegion` produces it; the crate's
merge strategies output plain values (`CollectError`'s `Out = Vec<T>`,
plan.rs line 126), and a processor output is a plain value. -/
def shapeResultVec : PlanShape → Bool
  | PlanShape.dispatch => false
  | PlanShape.resolveLock s => shapeResultVec s
  | PlanShape.retryRegion s => shapeResultVec s
  | PlanShape.multiRegion _ => true
  | PlanShape.mergeResponse _ => false
  | PlanShape.processResponse _ => false
  | PlanShape.heartbeat s => shapeResultVec s

/-- Does `P::Result` satisfy the bound `Process` (used by `post_process`,
plan_builder.rs line 106)?  Modelled from the spec: processors exist for
single-region responses; no merge output, processor output or
`Vec<Result<_>>` implements it. -/
def shapeProcessable : PlanShape → Bool
  | PlanShape.dispatch => true
  | PlanShape.resolveLock s => shapeProcessable s
  | PlanShape.retryRegion s => shapeProcessable s
  | PlanShape.multiRegion _ => false
  | PlanShape.mergeResponse _ => false
  | PlanShape.processResponse _ => false
  | PlanShape.heartbeat _ => false

/-- Does the plan satisfy the bound `Shardable` (used by `multi_region`,
plan_builder.rs line 134)?  Modelled from the spec and the test of mod.rs:
`Dispatch<Req>` is shardable when the request is, and `ResolveLock`
forwards shardability of its inner plan (the test stacks
`resolve_lock` then `multi_region`, mod.rs lines 167-168); per the spec's
stacking rules no other stage is shardable. -/
def shapeShardable (caps : ReqCaps) : PlanShape → Bool
  | PlanShape.dispatch => caps.shardable
  | PlanShape.resolveLock s => shapeShardable caps s
  | PlanShape.retryRegion _ => false
  | PlanShape.multiRegion _ => false
  | PlanShape.mergeResponse _ => false
  | PlanShape.processResponse _ => false
  | PlanShape.heartbeat _ => false

/-- The state of the builder: plan shape plus phase. -/
structure BState where
  shape : PlanShape
  phase : PlanBuilderPhase
deriving DecidableEq

/-- The builder methods a caller can invoke after `PlanBuilder::new`
(which seeds the state with `Dispatch` in `NoTarget`, plan_builder.rs
lines 27-38). -/
inductive BOp where
  | resolve_lock
  | retry_region
  | merge
  | post_process
  | heart_beat
  | multi_region
  | single_region
  | single_region_with_store
deriving DecidableEq

/-- One builder method application.  `none` means the stack is rejected:
the method's `impl` block does not apply (wrong phase, wrong plan type) or
one of its trait bounds is unsatisfied.
`resolve_lock`/`retry_region`/`merge`/`post_process`/`heart_beat`
(plan_builder.rs lines 48-132) are phase-polymorphic and keep the phase;
`multi_region` (lines 134-149) requires `NoTarget`, `Shardable` and
`P::Result: HasError` and yields `Targetted`; `single_region` (lines
151-158) requires `NoTarget`, a bare `Dispatch` and a `SingleKey` request;
`single_region_with_store` (lines 160-168) requires `NoTarget` and a bare
`Dispatch`.  Both yield `Targetted`. -/
def stepB (caps : ReqCaps) (shape : PlanShape) (phase : PlanBuilderPhase) :
    BOp → Option BState
  | BOp.resolve_lock =>
    if shapeHasLocks shape then some ⟨PlanShape.resolveLock shape, phase⟩ else none
  | BOp.retry_region =>
    if shapeHasError shape then some ⟨PlanShape.retryRegion shape, phase⟩ else none
  | BOp.merge =>
    if shapeResultVec shape then some ⟨PlanShape.mergeResponse shape, phase⟩ else none
  | BOp.post_process =>
    if shapeProcessable shape then some ⟨PlanShape.processResponse shape, phase⟩ else none
  | BOp.heart_beat =>
    if shapeHasError shape then some ⟨PlanShape.heartbeat shape, phase⟩ else none
  | BOp.multi_region =>
    match phase with
    | PlanBuilderPhase.noTarget =>
      if shapeShardable caps shape && shapeHasError shape then
        some ⟨PlanShape.multiRegion shape, PlanBuilderPhase.targetted⟩
      else none
    | PlanBuilderPhase.targetted => none
  | BOp.single_region =>
    match phase, shape with
    | PlanBuilderPhase.noTarget, PlanShape.dispatch =>
      if caps.singleKey then some ⟨PlanShape.dispatch, PlanBuilderPhase.targetted⟩
      else none
    | _, _ => none
  | BOp.single_region_with_store =>
    match phase, shape with
    | PlanBuilderPhase.noTarget, PlanShape.dispatch =>
      some ⟨PlanShape.dispatch, PlanBuilderPhase.targetted⟩
    | _, _ => none

/-- Is the builder method one of the targeting operations? -/
def isTargeting : BOp → Bool
  | BOp.multi_region => true
  | BOp.single_region => true
  | BOp.single_region_with_store => true
  | _ => false

/-- Run a sequence of builder methods from a state; `none` as soon as one
of them is rejected. -/
def runOps (caps : ReqCaps) : List BOp → BState → Option BState
  | [], s => some s
  | op :: rest, s =>
    match stepB caps s.shape s.phase op with
    | none => none
    | some s2 => runOps caps rest s2

/-- Assemble a plan: seed the builder with `Dispatch` in `NoTarget`
(`PlanBuilder::new`), apply the methods, then call `plan()` — which is
only provided by the `Targetted` impl block (plan_builder.rs lines
40-46). -/
def buildPlan (caps : ReqCaps) (ops : List BOp) : Option PlanShape :=
  match runOps caps ops ⟨PlanShape.dispatch, PlanBuilderPhase.noTarget⟩ with
  | none => none
  | some s =>
    match s.phase with
    | PlanBuilderPhase.targetted => some s.shape
    | PlanBuilderPhase.noTarget => none

/-! ### Concrete instances used to evaluate the model -/

/-- A mock inner plan that always succeeds with a response carrying one
lock (and no errors). -/
def c1inner : Nat → Except Error (Response Unit) :=
  fun _ => Except.ok ⟨none, none, [0], ()⟩

/-- A mock lock resolver that always reports at least one lock still live
(returns `Ok(false)`). -/
def c1resolver : Nat → Except Error Bool :=
  fun _ => Except.ok false

/-- Responses of a mock inner plan that always carries the region error
`RegionNotFound { region_id: 1 }` (as the mock of mod.rs lines 91-95). -/
def c2rs : Nat → Response Unit :=
  fun _ => ⟨none, some (Error.regionNotFound 1), [], ()⟩

/-- A mock inner plan that always succeeds with a region-erroring
response. -/
def c2inner : Nat → Except Error (Response Unit) :=
  fun i => Except.ok (c2rs i)

/-- A mock inner plan whose first response carries a region error and
whose later responses are clean. -/
def c3inner : Nat → Except Error (Response Unit)
  | 0 => Except.ok ⟨none, some (Error.regionNotFound 1), [], ()⟩
  | _ + 1 => Except.ok ⟨none, none, [], ()⟩

/-- A mock inner plan whose first response carries one lock and whose
later responses carry none. -/
def c4inner : Nat → Except Error (Response Unit)
  | 0 => Except.ok ⟨none, none, [7], ()⟩
  | _ + 1 => Except.ok ⟨none, none, [], ()⟩

/-- A mock lock resolver that always resolves every lock synchronously
(returns `Ok(true)`). -/
def c4resolver : Nat → Except Error Bool :=
  fun _ => Except.ok true

/-- A mock inner plan that always succeeds with a response carrying one
lock. -/
def c5inner : Nat → Except Error (Response Unit) :=
  fun _ => Except.ok ⟨none, none, [3], ()⟩

/-- A mock lock resolver (never reached in the scenario it serves). -/
def c5resolver : Nat → Except Error Bool :=
  fun _ => Except.ok false

/-- A mock `apply_shard` that always succeeds. -/
def c8apply : Nat → Nat → Except Error Unit :=
  fun _ _ => Except.ok ()

/-- A mock per-shard execution: shard 1 fails at the RPC level, shard 2
succeeds with a response whose top-level error is set, every other shard
succeeds cleanly. -/
def c8exec : Nat → Nat → Except Error (Response Unit) :=
  fun s _ =>
    if s = 1 then Except.error (Error.otherErr 9)
    else if s = 2 then Except.ok ⟨some (Error.otherErr 5), none, [], ()⟩
    else Except.ok ⟨none, none, [], ()⟩

/-! ## Helper lemmas -/

lemma locks_isEmpty_false {α : Type} (r : Response α) (h : r.locks ≠ []) :
    r.locks.isEmpty = false := by
  cases hl : r.locks with
  | nil => exact absurd hl h
  | cons a as => rfl

lemma retryRegionGo_no_invalidation {α : Type}
    (inner : Nat → Except Error (Response α)) :
    ∀ (delays : List Nat) (r : Response α) (inv dd : Nat),
      (retryRegionGo inner delays r inv dd).invalidatedRegions = [] := by
  intro delays
  induction delays with
  | nil =>
    intro r inv dd
    rw [retryRegionGo]
    cases r.regionError <;> rfl
  | cons d rest ih =>
    intro r inv dd
    rw [retryRegionGo]
    cases r.regionError with
    | none => rfl
    | some e =>
      cases inner inv with
      | error e2 => rfl
      | ok r2 => exact ih r2 (inv + 1) (dd + 1)

lemma retryRegionGo_all_region_errors {α : Type}
    (inner : Nat → Except Error (Response α)) (rs : Nat → Response α)
    (f : Nat → Error)
    (hin : ∀ i, inner i = Except.ok (rs i))
    (hre : ∀ i, (rs i).regionError = some (f i)) :
    ∀ (delays : List Nat) (k dd : Nat),
      retryRegionGo inner delays (rs k) (k + 1) dd =
        ⟨Except.error (f (k + delays.length)), k + 1 + delays.length,
         dd + delays.length, []⟩ := by
  intro delays
  induction delays with
  | nil =>
    intro k dd
    rw [retryRegionGo, hre k]
    simp
  | cons d rest ih =>
    intro k dd
    rw [retryRegionGo, hre k, hin (k + 1)]
    dsimp only
    rw [ih (k + 1) (dd + 1)]
    simp only [List.length_cons]
    have h1 : k + 1 + rest.length = k + (rest.length + 1) := by omega
    have h2 : k + 1 + 1 + rest.length = k + 1 + (rest.length + 1) := by omega
    have h3 : dd + 1 + rest.length = dd + (rest.length + 1) := by omega
    rw [h1, h2, h3]

lemma resolveLockGo_livelock {α : Type}
    (inner : Nat → Except Error (Response α))
    (resolver : Nat → Except Error Bool) (b : Backoff)
    (hb1 : b.isNone = false) (hb2 : b.delays ≠ [])
    (hres : ∀ j, resolver j = Except.ok false)
    (hin : ∀ i, ∃ r, inner i = Except.ok r ∧ r.locks ≠ []) :
    ∀ (fuel : Nat) (r : Response α) (inv rc dd : Nat), r.locks ≠ [] →
      resolveLockGo inner resolver b fuel r inv rc dd = none := by
  intro fuel
  induction fuel with
  | zero => intro r inv rc dd h; rfl
  | succ n ih =>
    intro r inv rc dd h
    obtain ⟨r2, hr2, hl2⟩ := hin inv
    obtain ⟨d, rest, hd⟩ : ∃ d rest, b.delays = d :: rest := by
      cases hdl : b.delays with
      | nil => exact absurd hdl hb2
      | cons d rest => exact ⟨d, rest, rfl⟩
    rw [resolveLockGo]
    simp only [takeLocks, locks_isEmpty_false r h, hb1, hres rc, hr2,
      Backoff.nextDelayDuration, hd]
    exact ih r2 (inv + 1) (rc + 1) (dd + 1) hl2

/-! ## Claim theorems -/

/-- C1 (code bug): for a `ResolveLock` plan whose inner plan always
returns a response with a non-empty lock set, whose resolver always
returns `false`, and whose lock backoff has M = 1 delay, the claim says
`execute()` invokes the inner plan exactly M + 1 = 2 times and then
returns `ResolveLockError`.  The code instead clones `self` afresh inside
the loop body (plan.rs line 234), so every iteration draws the first delay
of an unconsumed copy of the backoff: the draw never signals exhaustion
and the loop never terminates — for every fuel bound the execution is
still running. -/
theorem resolveLock_contended_livelock (fuel : Nat) :
    resolveLockExecute c1inner c1resolver ⟨[1], false⟩ fuel = none := by
  have h := resolveLockGo_livelock c1inner c1resolver ⟨[1], false⟩ rfl
    (by simp) (fun j => rfl)
    (fun i => ⟨⟨none, none, [0], ()⟩, rfl, by simp⟩)
  exact h fuel ⟨none, none, [0], ()⟩ 1 0 0 (by simp)

/-- C2: for a `RetryRegion` plan over an inner plan whose every result
carries a region error, with a region backoff budget of N =
`delays.length` delays, `execute()` invokes the inner plan exactly N + 1
times and returns, as the plan-level error, the region error of the last
observed result (the response of invocation N). -/
theorem retryRegion_exhausts_backoff {α : Type}
    (inner : Nat → Except Error (Response α)) (rs : Nat → Response α)
    (f : Nat → Error) (delays : List Nat) (flag : Bool)
    (hin : ∀ i, inner i = Except.ok (rs i))
    (hre : ∀ i, (rs i).regionError = some (f i)) :
    retryRegionExecute inner ⟨delays, flag⟩ =
      ⟨Except.error (f delays.length), delays.length + 1, delays.length, []⟩ := by
  rw [retryRegionExecute]
  rw [hin 0]
  have h := retryRegionGo_all_region_errors inner rs f hin hre delays 0 0
  simpa [Nat.add_comm] using h

/-- Witness for C2 at a concrete input: a backoff of three delays and a
mock that always region-errors with `RegionNotFound { region_id: 1 }`
gives four inner invocations, three delays drawn, and the region error as
the plan-level error (the scenario of the test in mod.rs lines 80-175). -/
theorem retryRegion_exhausts_backoff_witness :
    retryRegionExecute c2inner ⟨[1, 1, 1], false⟩ =
      ⟨Except.error (Error.regionNotFound 1), 4, 3, []⟩ :=
  retryRegion_exhausts_backoff c2inner c2rs (fun _ => Error.regionNotFound 1)
    [1, 1, 1] false (fun _ => rfl) (fun _ => rfl)

/-- C3 counterexample: a concrete `RetryRegion` execution that observes a
region error on its first result and performs a second attempt
(2 invocations), yet whose trace of `invalidate_region` calls on the
placement directory client is empty — the claim predicts at least one
invalidation before the next attempt. -/
theorem retryRegion_no_invalidate_cex :
    (retryRegionExecute c3inner ⟨[5], false⟩).invocations = 2 ∧
    (retryRegionExecute c3inner ⟨[5], false⟩).invalidatedRegions = [] :=
  ⟨rfl, rfl⟩

/-- C3 (amended): `RetryRegion::execute` never calls the placement
directory client's `invalidate_region`; on a region error it only draws a
backoff delay, sleeps and re-executes the inner plan (plan.rs lines
178-192 contain no use of `pd_client`). -/
theorem retryRegion_never_invalidates {α : Type}
    (inner : Nat → Except Error (Response α)) (b : Backoff) :
    (retryRegionExecute inner b).invalidatedRegions = [] := by
  rw [retryRegionExecute]
  cases inner 0 with
  | error e => rfl
  | ok r => exact retryRegionGo_no_invalidation inner b.delays r 1 0

/-- C4: for a `ResolveLock` plan whose first inner result carries a
non-empty lock set, if the resolver reports all locks resolved
synchronously (returns `true`), the inner plan is re-executed without
drawing any delay from the lock backoff; if the second result carries no
locks it is returned as the success value (2 invocations, 1 resolver
call, 0 delays drawn). -/
theorem resolveLock_sync_resolve_skips_backoff {α : Type}
    (inner : Nat → Except Error (Response α))
    (resolver : Nat → Except Error Bool) (b : Backoff)
    (r0 r1 : Response α) (fuel : Nat)
    (h0 : inner 0 = Except.ok r0) (hl0 : r0.locks ≠ [])
    (hres : resolver 0 = Except.ok true)
    (h1 : inner 1 = Except.ok r1) (hl1 : r1.locks = [])
    (hb : b.isNone = false) :
    resolveLockExecute inner resolver b (fuel + 2) =
      some ⟨Except.ok r1, 2, 1, 0⟩ := by
  obtain ⟨e1, re1, l1, v1⟩ := r1
  simp only at hl1
  subst hl1
  have hstep : fuel + 2 = (fuel + 1) + 1 := rfl
  rw [hstep]
  simp only [resolveLockExecute, h0]
  simp only [resolveLockGo, takeLocks, locks_isEmpty_false r0 hl0, hb, hres, h1]
  simp

/-- Witness for C4 at a concrete input: first response with one lock,
resolver returns `true`, second response lock-free; the second response is
returned with 2 invocations, 1 resolver call and 0 delays drawn from the
two-delay backoff. -/
theorem resolveLock_sync_resolve_skips_backoff_witness :
    resolveLockExecute c4inner c4resolver ⟨[1, 1], false⟩ 2 =
      some ⟨Except.ok ⟨none, none, [], ()⟩, 2, 1, 0⟩ :=
  resolveLock_sync_resolve_skips_backoff c4inner c4resolver ⟨[1, 1], false⟩
    ⟨none, none, [7], ()⟩ ⟨none, none, [], ()⟩ 0 rfl (by simp) rfl rfl rfl rfl

/-- C5: for a `ResolveLock` plan whose lock backoff is the trivial "none"
schedule, a first inner result with a non-empty lock set makes
`execute()` return `ResolveLockError` immediately: exactly one inner
invocation, zero resolver calls, zero delays drawn. -/
theorem resolveLock_none_schedule_failfast {α : Type}
    (inner : Nat → Except Error (Response α))
    (resolver : Nat → Except Error Bool) (b : Backoff)
    (r0 : Response α) (fuel : Nat)
    (h0 : inner 0 = Except.ok r0) (hl0 : r0.locks ≠ [])
    (hb : b.isNone = true) :
    resolveLockExecute inner resolver b (fuel + 1) =
      some ⟨Except.error Error.resolveLockError, 1, 0, 0⟩ := by
  simp only [resolveLockExecute, h0]
  simp [resolveLockGo, takeLocks, locks_isEmpty_false r0 hl0, hb]

/-- Witness for C5 at a concrete input: `Backoff::no_backoff()` and a
first response carrying one lock yield `ResolveLockError` after a single
dispatch and no resolver call. -/
theorem resolveLock_none_schedule_failfast_witness :
    resolveLockExecute c5inner c5resolver Backoff.noBackoff 1 =
      some ⟨Except.error Error.resolveLockError, 1, 0, 0⟩ :=
  resolveLock_none_schedule_failfast c5inner c5resolver Backoff.noBackoff
    ⟨none, none, [3], ()⟩ 0 rfl (by simp) rfl

/-- C7: for every `MultiRegion` plan, the vector returned by `execute()`
lists the per-shard outcomes in exactly the order in which the shard
stream produced its items: the vector has one entry per stream item and
its i-th entry is the outcome of the i-th item.  (In the source the
`and_then` combinator runs the per-shard closures one after another while
draining the stream, so stream order is preserved independently of any
completion timing.) -/
theorem multiRegion_preserves_order {σ τ α : Type}
    (applyShard : σ → τ → Except Error Unit)
    (execShard : σ → τ → Except Error (Response α))
    (items : List (Except Error (σ × τ))) :
    ∃ out : List (Except Error (Response α)),
      multiRegionExecute applyShard execShard items = Except.ok out ∧
      out.length = items.length ∧
      ∀ i : Nat, out[i]? = (items[i]?).map (shardOutcome applyShard execShard) := by
  refine ⟨items.map (shardOutcome applyShard execShard), rfl,
    List.length_map _ _, ?_⟩
  intro i
  simp [List.getElem?_map]

/-- C8: in a `MultiRegion` plan, a failing per-shard execution and a
response whose top-level `error()` is `Some` are each captured as an
`Err` element at that shard's position in the output vector, and in both
cases the sibling shards before and after it are still attempted and
deliver their own outcomes. -/
theorem multiRegion_shard_failures_isolated {σ τ α : Type}
    (applyShard : σ → τ → Except Error Unit)
    (execShard : σ → τ → Except Error (Response α))
    (pre post : List (Except Error (σ × τ))) (shard : σ) (store : τ)
    (e2 : Error) :
    (applyShard shard store = Except.ok () →
      execShard shard store = Except.error e2 →
      multiRegionExecute applyShard execShard
          (pre ++ Except.ok (shard, store) :: post) =
        Except.ok (pre.map (shardOutcome applyShard execShard) ++
          Except.error e2 :: post.map (shardOutcome applyShard execShard)))
    ∧ (∀ resp : Response α, applyShard shard store = Except.ok () →
        execShard shard store = Except.ok resp → resp.err = some e2 →
        multiRegionExecute applyShard execShard
            (pre ++ Except.ok (shard, store) :: post) =
          Except.ok (pre.map (shardOutcome applyShard execShard) ++
            Except.error e2 :: post.map (shardOutcome applyShard execShard))) := by
  constructor
  · intro ha he
    simp [multiRegionExecute, shardOutcome, ha, he]
  · intro resp ha he hr
    simp [multiRegionExecute, shardOutcome, ha, he, hr]

/-- Witness for C8 at a concrete input: shard 1 fails at the RPC level
(its `Err` sits at its position, the shard after it is still attempted);
shard 2 returns a response with a top-level error (its `Err` sits at its
position, the shard after it is still attempted). -/
theorem multiRegion_shard_failures_isolated_witness :
    multiRegionExecute c8apply c8exec [Except.ok (0, 0), Except.ok (1, 0)] =
      Except.ok [Except.ok ⟨none, none, [], ()⟩,
        Except.error (Error.otherErr 9)] ∧
    multiRegionExecute c8apply c8exec [Except.ok (2, 0), Except.ok (0, 0)] =
      Except.ok [Except.error (Error.otherErr 5),
        Except.ok ⟨none, none, [], ()⟩] :=
  ⟨(multiRegion_shard_failures_isolated c8apply c8exec [Except.ok (0, 0)] []
      1 0 (Error.otherErr 9)).1 rfl rfl,
   (multiRegion_shard_failures_isolated c8apply c8exec [] [Except.ok (0, 0)]
      2 0 (Error.otherErr 5)).2 ⟨some (Error.otherErr 5), none, [], ()⟩
      rfl rfl rfl⟩

/-- C9: for every `Dispatch` plan whose store-client slot is populated,
`execute()` calls that store client's `dispatch` with the bound request
and returns the response (no panic is reached); an unpopulated slot is a
panic (`expect`), a programmer error, never a recoverable error value. -/
theorem dispatch_populated_calls_client {Req Resp : Type} (req : Req)
    (client : Req → Except Error Resp) :
    Dispatch.execute ⟨req, some client⟩ = PanicOr.ok (client req) ∧
    Dispatch.execute (⟨req, none⟩ : Dispatch Req Resp) = PanicOr.panicked :=
  ⟨rfl, rfl⟩

/-- C10: `MultiRegion::execute` never returns a plan-level error: for
every shard stream and every behavior of the inner plan it returns `Ok`
of the vector of per-item outcomes, so stream-resolution errors,
per-shard execution errors and response-level errors appear only as `Err`
elements inside that vector. -/
theorem multiRegion_never_plan_error {σ τ α : Type}
    (applyShard : σ → τ → Except Error Unit)
    (execShard : σ → τ → Except Error (Response α))
    (items : List (Except Error (σ × τ))) :
    (∀ e : Error, multiRegionExecute applyShard execShard items ≠ Except.error e)
    ∧ multiRegionExecute applyShard execShard items =
        Except.ok (items.map (shardOutcome applyShard execShard)) :=
  ⟨fun _ h => Except.noConfusion h, rfl⟩

lemma stepB_phase_change (caps : ReqCaps) (shape : PlanShape)
    (phase : PlanBuilderPhase) (op : BOp) (s2 : BState)
    (h : stepB caps shape phase op = some s2) :
    s2.phase = PlanBuilderPhase.targetted ↔
      (phase = PlanBuilderPhase.targetted ∨ isTargeting op = true) := by
  cases op <;> cases phase <;> cases shape <;>
    simp only [stepB, isTargeting] at h ⊢ <;>
    (try split at h) <;>
    first
      | (injection h with h2; subst h2; simp)
      | injection h

lemma stepB_merge_dead (caps : ReqCaps) (inner : PlanShape)
    (phase : PlanBuilderPhase) (op : BOp) :
    stepB caps (PlanShape.mergeResponse inner) phase op = none := by
  cases op <;> cases phase <;>
    simp [stepB, shapeHasLocks, shapeHasError, shapeResultVec,
      shapeProcessable, shapeShardable]

lemma stepB_merge_result (caps : ReqCaps) (shape : PlanShape)
    (phase : PlanBuilderPhase) (s2 : BState)
    (h : stepB caps shape phase BOp.merge = some s2) :
    s2 = ⟨PlanShape.mergeResponse shape, phase⟩ := by
  simp only [stepB] at h
  split at h <;> simp_all

lemma runOps_merge_dead (caps : ReqCaps) (op : BOp) (rest : List BOp)
    (inner : PlanShape) (phase : PlanBuilderPhase) :
    runOps caps (op :: rest) ⟨PlanShape.mergeResponse inner, phase⟩ = none := by
  simp [runOps, stepB_merge_dead]

lemma runOps_no_targeting (caps : ReqCaps) :
    ∀ (ops : List BOp) (s : BState), (∀ op ∈ ops, isTargeting op = false) →
      s.phase = PlanBuilderPhase.noTarget →
      runOps caps ops s = none ∨
        ∃ s2, runOps caps ops s = some s2 ∧
          s2.phase = PlanBuilderPhase.noTarget := by
  intro ops
  induction ops with
  | nil => intro s h hp; exact Or.inr ⟨s, rfl, hp⟩
  | cons op rest ih =>
    intro s h hp
    cases hstep : stepB caps s.shape s.phase op with
    | none => left; simp [runOps, hstep]
    | some s2 =>
      have hiff := stepB_phase_change caps s.shape s.phase op s2 hstep
      have hop : isTargeting op = false := h op (List.mem_cons_self _ _)
      have hph : s2.phase = PlanBuilderPhase.noTarget := by
        cases hp2 : s2.phase with
        | noTarget => rfl
        | targetted =>
          rw [hp2] at hiff
          rcases hiff.mp rfl with hc | hc
          · rw [hp] at hc; exact absurd hc (by simp)
          · rw [hop] at hc; exact absurd hc (by simp)
      have hrest := ih s2 (fun o ho => h o (List.mem_cons_of_mem _ ho)) hph
      simpa [runOps, hstep] using hrest

lemma runOps_append (caps : ReqCaps) :
    ∀ (l1 l2 : List BOp) (s : BState),
      runOps caps (l1 ++ l2) s =
        match runOps caps l1 s with
        | none => none
        | some s2 => runOps caps l2 s2 := by
  intro l1
  induction l1 with
  | nil => intro l2 s; rfl
  | cons op rest ih =>
    intro l2 s
    simp only [List.cons_append, runOps]
    cases stepB caps s.shape s.phase op with
    | none => rfl
    | some s2 => exact ih l2 s2

/-- C6: the builder's `plan()` is reachable only in the `Targetted` phase;
exactly `multi_region`, `single_region` and `single_region_with_store`
move a builder from `NoTarget` to `Targetted`; hence a method stack with
no targeting step cannot produce a plan, and neither can one with `merge`
followed (immediately or later) by `resolve_lock`. -/
theorem planBuilder_phase_discipline :
    (∀ (caps : ReqCaps) (ops : List BOp),
        (∀ op ∈ ops, isTargeting op = false) → buildPlan caps ops = none) ∧
    (∀ (caps : ReqCaps) (shape : PlanShape) (phase : PlanBuilderPhase)
        (op : BOp) (s2 : BState), stepB caps shape phase op = some s2 →
        (s2.phase = PlanBuilderPhase.targetted ↔
          (phase = PlanBuilderPhase.targetted ∨ isTargeting op = true))) ∧
    (∀ (caps : ReqCaps) (l1 l2 l3 : List BOp),
        buildPlan caps (l1 ++ BOp.merge :: l2 ++ BOp.resolve_lock :: l3) = none) ∧
    (∀ (caps : ReqCaps) (ops : List BOp) (shape : PlanShape),
        buildPlan caps ops = some shape →
        ∃ s2 : BState,
          runOps caps ops ⟨PlanShape.dispatch, PlanBuilderPhase.noTarget⟩ =
              some s2 ∧
            s2.phase = PlanBuilderPhase.targetted ∧ s2.shape = shape) := by
  refine ⟨?_, ?_, ?_, ?_⟩
  · intro caps ops h
    rw [buildPlan]
    rcases runOps_no_targeting caps ops
        ⟨PlanShape.dispatch, PlanBuilderPhase.noTarget⟩ h rfl with hr | ⟨s2, hr, hp⟩
    · rw [hr]
    · rw [hr]
      simp [hp]
  · intro caps shape phase op s2 h
    exact stepB_phase_change caps shape phase op s2 h
  · intro caps l1 l2 l3
    rw [buildPlan]
    rw [runOps_append, runOps_append]
    cases h1 : runOps caps l1 ⟨PlanShape.dispatch, PlanBuilderPhase.noTarget⟩ with
    | none => rfl
    | some s1 =>
      simp only [runOps]
      cases h2 : stepB caps s1.shape s1.phase BOp.merge with
      | none => rfl
      | some s2 =>
        have hs2 := stepB_merge_result caps s1.shape s1.phase s2 h2
        subst hs2
        cases l2 with
        | nil => simp [runOps, stepB_merge_dead]
        | cons o t => simp [runOps, stepB_merge_dead]
  · intro caps ops shape h
    rw [buildPlan] at h
    cases hr : runOps caps ops ⟨PlanShape.dispatch, PlanBuilderPhase.noTarget⟩ with
    | none => rw [hr] at h; exact absurd h (by simp)
    | some s2 =>
      rw [hr] at h
      cases hp : s2.phase with
      | noTarget => simp [hp] at h
      | targetted =>
        simp only [hp] at h
        simp only [Option.some.injEq] at h
        exact ⟨s2, rfl, hp, h⟩

/-- Witness for C6 at concrete inputs: a stack of only non-targeting
methods yields no plan; `multi_region` from `NoTarget` lands in
`Targetted`; the stack `merge` then `resolve_lock` yields no plan; and a
stack whose one method is `multi_region` produces a plan through a run
ending in the `Targetted` phase. -/
theorem planBuilder_phase_discipline_witness :
    buildPlan ⟨true, true⟩ [BOp.resolve_lock, BOp.retry_region] = none ∧
    ((⟨PlanShape.multiRegion PlanShape.dispatch,
        PlanBuilderPhase.targetted⟩ : BState).phase =
        PlanBuilderPhase.targetted ↔
      (PlanBuilderPhase.noTarget = PlanBuilderPhase.targetted ∨
        isTargeting BOp.multi_region = true)) ∧
    buildPlan ⟨true, true⟩ [BOp.merge, BOp.resolve_lock] = none ∧
    (∃ s2 : BState,
      runOps ⟨true, true⟩ [BOp.multi_region]
          ⟨PlanShape.dispatch, PlanBuilderPhase.noTarget⟩ = some s2 ∧
        s2.phase = PlanBuilderPhase.targetted ∧
        s2.shape = PlanShape.multiRegion PlanShape.dispatch) :=
  ⟨planBuilder_phase_discipline.1 ⟨true, true⟩
      [BOp.resolve_lock, BOp.retry_region] (by decide),
   planBuilder_phase_discipline.2.1 ⟨true, true⟩ PlanShape.dispatch
      PlanBuilderPhase.noTarget BOp.multi_region
      ⟨PlanShape.multiRegion PlanShape.dispatch, PlanBuilderPhase.targetted⟩ rfl,
   planBuilder_phase_discipline.2.2.1 ⟨true, true⟩ [] [] [],
   planBuilder_phase_discipline.2.2.2 ⟨true, true⟩ [BOp.multi_region]
      (PlanShape.multiRegion PlanShape.dispatch) rfl⟩

end ClientRust
